import Mathlib

set_option maxHeartbeats 1000000

/-! Verification development for the Cythoner code generator
(src/__init__.py).  The Python module walks an ast tree and renders
Cython text.  Below, each rendering function of the source is embedded as
an executable Lean definition, and the frozen claims about the renderer
are settled as theorems about these definitions.

Modelling conventions:
  * Python exceptions are modelled by the Except monad over PyErr.
  * CPython calls str on objects lacking a string conversion and obtains
    the default object repr, a text containing the class name and the
    object address.  That text is address dependent, so the embedding
    threads a parameter pr : PNode → String giving the repr of each
    syntax node; theorems that depend on repr output take the facts they
    need about pr as hypotheses.
  * The operators dict of the source is keyed by Python classes; the
    embedding keys it by PyClass, covering the operator node classes and
    the list class (the key actually looked up by the Compare branch of
    parse_expr, since type of the ops attribute is list). -/

/-- Runtime error kinds that the rendering code can raise. -/
inductive PyErr where
  | typeError
  | keyError
  | attributeError
  | indexError
deriving DecidableEq

/-- The binary and comparison operator node classes of the Python ast
module that appear as keys of the operators dict. -/
inductive OpTy where
  | add | sub | mult | div | pow | mod | lshift | rshift
  | bitOr | bitXor | bitAnd | floorDiv
  | eq | notEq | lt | ltE | gt | gtE
  | isOp | isNot | inOp | notIn
deriving DecidableEq

/-- Python constant values carried by ast.Constant nodes. -/
inductive PConst where
  | int (n : Int)
  | str (s : String)
  | bool (b : Bool)
  | none
deriving DecidableEq

/-- Expression nodes of the fragment of the Python ast that the source
manipulates.  The alias constructor stands for the ast.alias entries
of an import statement, which the source passes through parse_args and
hence through parse_atom. -/
inductive PNode where
  | name (id : String)
  | constE (value : PConst)
  | call (func : PNode) (args : List PNode)
  | attrE (value : PNode) (attr : String)
  | binOp (left : PNode) (op : OpTy) (right : PNode)
  | compare (left : PNode) (ops : List OpTy) (comparators : List PNode)
  | listE (elts : List PNode)
  | alias (nm : String)

/-- One entry of arguments.args on an ast.FunctionDef: the parameter
name and the optional annotation node. -/
structure FArg where
  arg : String
  annot : Option PNode

/-- Statement nodes covering every case of the match in parse_stmt plus
a representative unrecognised kind (classDef), which parse_stmt lets
fall through. -/
inductive Stmt where
  | exprS (colOffset : Nat) (value : PNode)
  | passS (colOffset : Nat)
  | listS (colOffset : Nat) (elts : List PNode)
  | annAssign (colOffset : Nat) (target : PNode) (annot : PNode) (value : PNode)
  | assign (colOffset : Nat) (targets : List PNode) (value : PNode)
  | ret (colOffset : Nat) (value : Option PNode)
  | forS (colOffset : Nat) (target : PNode) (iter : PNode) (body : List Stmt)
  | augAssign (colOffset : Nat) (target : PNode) (op : OpTy) (value : PNode)
  | ifS (colOffset : Nat) (test : PNode) (body : List Stmt)
  | importS (colOffset : Nat) (names : List String)
  | importFrom (colOffset : Nat) (module : Option String) (names : List String) (level : Nat)
  | raiseS (colOffset : Nat) (exc : Option PNode)
  | functionDef (colOffset : Nat) (name : String) (args : List FArg) (body : List Stmt)
      (decorators : List PNode) (returns : Option PNode)
  | classDef (colOffset : Nat) (name : String)

/-- Embeds the helper space of the source: a string of n spaces. -/
def space (n : Nat) : String := ⟨List.replicate n ' '⟩

/-- Embeds the repetition of the dot in relative imports. -/
def dots (level : Nat) : String := ⟨List.replicate level '.'⟩

/-- A single-quote character as a string, used by parse_atom around
string constants. -/
def squote : String := String.singleton (Char.ofNat 39)

/-- Embeds str applied to a Python constant value: str of an int is its
decimal text, str of a string is the string itself, str of a bool is
True or False, str of None is None. -/
def strConst : PConst → String
  | .int n => toString n
  | .str s => s
  | .bool b => if b then "True" else "False"
  | .none => "None"

/-- Embeds an access to the id attribute of a node: ast.Name carries id,
every other node kind raises AttributeError. -/
def getId : PNode → Except PyErr String
  | .name i => .ok i
  | _ => .error .attributeError

/-- Embeds an access to the func attribute of a node: ast.Call carries
func, every other node kind raises AttributeError. -/
def getFunc : PNode → Except PyErr PNode
  | .call f _ => .ok f
  | _ => .error .attributeError

/-- The args attribute of a call node.  The source only reads it on
decorators already known to carry a func attribute, hence on calls. -/
def callArgs : PNode → List PNode
  | .call _ a => a
  | _ => []

/-- Python classes used as keys into the operators dict: the operator
node classes, and the builtin list class (looked up by the Compare
branch because type of expr.ops is list). -/
inductive PyClass where
  | opC (o : OpTy)
  | listC
deriving DecidableEq

/-- Embeds the operators dict of the source, entry for entry.  A key
missing from the dict yields Option.none, which dictGet turns into a
KeyError. -/
def operators : PyClass → Option String
  | .opC .add => some "+"
  | .opC .sub => some "-"
  | .opC .mult => some "*"
  | .opC .div => some "/"
  | .opC .pow => some "**"
  | .opC .mod => some "%"
  | .opC .lshift => some "<<"
  | .opC .rshift => some ">>"
  | .opC .bitOr => some "|"
  | .opC .bitXor => some "^"
  | .opC .bitAnd => some "&"
  | .opC .floorDiv => some "//"
  | .opC .eq => some "=="
  | .opC .notEq => some "!="
  | .opC .lt => some "<"
  | .opC .ltE => some "<="
  | .opC .gt => some ">"
  | .opC .gtE => some ">="
  | .opC .isOp => some "is"
  | .opC .isNot => some "is not"
  | .opC .inOp => some "in"
  | .opC .notIn => some "not in"
  | .listC => Option.none

/-- Embeds subscription of the operators dict: a missing key raises
KeyError. -/
def dictGet (k : PyClass) : Except PyErr String :=
  match operators k with
  | some s => .ok s
  | Option.none => .error .keyError

/-- The two leading cases of parse_atom (ast.Name and ast.Constant);
any other node falls through to the supplied parse_expr result.  The
delegation is factored this way so that the recursion stays structural;
parse_atom below recovers the shape of the source function. -/
def atomOr (res : Except PyErr String) (e : PNode) : Except PyErr String :=
  match e with
  | .name i => .ok i
  | .constE (.str s) => .ok (squote ++ s ++ squote)
  | .constE c => .ok (strConst c)
  | _ => res

mutual

/-- Embeds parse_expr of the source on expression nodes.  A Constant
and an Attribute node carry a value attribute and take the first branch
of the source (the Constant with a plain Python value, the Attribute
with a nested node, handled by parse_valueNode); a Name, a List and an
alias reach the final else branch and render as str of the node, i.e.
the node repr pr.  Calls to parse_args on expression lists are inlined
as parse_atom_list followed by the comma join. -/
def parse_expr (pr : PNode → String) : PNode → Except PyErr String
  | .constE c => .ok (strConst c)
  | .attrE v _ => parse_valueNode pr v
  | .call f args =>
    match f with
    | .attrE fv fattr => do
        let vs ← atomOr (parse_expr pr fv) fv
        let xs ← parse_atom_list pr args
        .ok (vs ++ "." ++ fattr ++ "(" ++ String.intercalate ", " xs ++ ")")
    | .name i => do
        let xs ← parse_atom_list pr args
        .ok (i ++ "(" ++ String.intercalate ", " xs ++ ")")
    | _ => .error .attributeError
  | .binOp l op r => do
      let ls ← atomOr (parse_expr pr l) l
      let os ← dictGet (.opC op)
      let rs ← atomOr (parse_expr pr r) r
      .ok (ls ++ " " ++ os ++ " " ++ rs)
  | .compare l _ comps => do
      let ls ← atomOr (parse_expr pr l) l
      let os ← dictGet .listC
      match comps with
      | [] => .error .indexError
      | c :: _ => do
          let cs ← atomOr (parse_expr pr c) c
          .ok (ls ++ " " ++ os ++ " " ++ cs)
  | .name i => .ok (pr (.name i))
  | .listE elts => .ok (pr (.listE elts))
  | .alias nm => .ok (pr (.alias nm))

/-- Embeds the first branch of parse_expr, taken when the argument owns
a value attribute holding another syntax node: an expression statement
(ast.Expr) or an attribute node.  The source matches on type of that
value: a Name leads to reading id off the outer object, which has no id
attribute, hence AttributeError; a Call is rendered reading func.value.id
directly; anything else is rendered as str of the value node. -/
def parse_valueNode (pr : PNode → String) : PNode → Except PyErr String
  | .name _ => .error .attributeError
  | .call f args =>
    match f with
    | .attrE fv fattr => do
        let fvId ← getId fv
        let xs ← parse_atom_list pr args
        .ok (fvId ++ "." ++ fattr ++ "(" ++ String.intercalate ", " xs ++ ")")
    | .name i => do
        let xs ← parse_atom_list pr args
        .ok (i ++ "(" ++ String.intercalate ", " xs ++ ")")
    | _ => .error .attributeError
  | v => .ok (pr v)

/-- Embeds the map of parse_atom over an expression list inside
parse_args, evaluated left to right with the first exception
propagating. -/
def parse_atom_list (pr : PNode → String) : List PNode → Except PyErr (List String)
  | [] => .ok []
  | e :: rest => do
      let s ← atomOr (parse_expr pr e) e
      let rs ← parse_atom_list pr rest
      .ok (s :: rs)

/-- Embeds the map of parse_expr over the elements of an ast.List in the
corresponding branch of parse_stmt. -/
def parse_expr_list (pr : PNode → String) : List PNode → Except PyErr (List String)
  | [] => .ok []
  | e :: rest => do
      let s ← parse_expr pr e
      let rs ← parse_expr_list pr rest
      .ok (s :: rs)

end

/-- Embeds parse_atom of the source: a Name renders as its id, a
Constant as its quoted or plain literal text, anything else delegates to
parse_expr. -/
def parse_atom (pr : PNode → String) (e : PNode) : Except PyErr String :=
  atomOr (parse_expr pr e) e

/-- Embeds the list branch of parse_args: the comma join of the
parse_atom rendering of each element. -/
def parse_args_list (pr : PNode → String) (l : List PNode) : Except PyErr String := do
  let xs ← parse_atom_list pr l
  .ok (String.intercalate ", " xs)

/-- Embeds the list comprehension of the arguments branch of
parse_args: each parameter renders as its annotation id followed by its
name when annotated, else as its bare name. -/
def parse_arg_strings : List FArg → Except PyErr (List String)
  | [] => .ok []
  | a :: rest => do
      let s ← (match a.annot with
        | some ann => do
            let i ← getId ann
            (pure (i ++ " " ++ a.arg) : Except PyErr String)
        | Option.none => pure a.arg)
      let rs ← parse_arg_strings rest
      .ok (s :: rs)

/-- Embeds the arguments branch of parse_args: the comma join of the
parameter renderings. -/
def parse_args_arguments (l : List FArg) : Except PyErr String := do
  let xs ← parse_arg_strings l
  .ok (String.intercalate ", " xs)

/-- Embeds the decorator loop at the top of the FunctionDef branch of
parse_stmt: reading func.id off each decorator (an AttributeError when
the decorator is not a call of a plain name), appending the token nogil
for no_gil and the token except followed by the rendered arguments for
except_error, in declaration order. -/
def parse_options (pr : PNode → String) : List PNode → Except PyErr (List String)
  | [] => .ok []
  | d :: rest => do
      let f ← getFunc d
      let i ← getId f
      let tok ← (if i = "no_gil" then
          (pure (some "nogil") : Except PyErr (Option String))
        else if i = "except_error" then do
          let s ← parse_args_list pr (callArgs d)
          pure (some ("except " ++ s))
        else pure Option.none)
      let restOpts ← parse_options pr rest
      .ok (match tok with
        | some t => t :: restOpts
        | Option.none => restOpts)

mutual

/-- Embeds parse_stmt of the source, case for case.  The result is an
Option because the Python function returns None when no case of its
match fires (and on the fall-through of the Raise branch); errors raised
inside a branch propagate.  Note that the ast.Expr branch returns the
expression rendering without any indentation, and that the AugAssign
branch interpolates the target node itself, i.e. its repr pr, instead of
its id. -/
def parse_stmt (pr : PNode → String) : Stmt → Except PyErr (Option String)
  | .exprS _ v => do
      let t ← parse_valueNode pr v
      .ok (some t)
  | .passS col => .ok (some (space col ++ "..."))
  | .listS col elts => do
      let xs ← parse_expr_list pr elts
      .ok (some (space col ++ "[" ++ String.intercalate ", " xs ++ "]"))
  | .annAssign col target ann value => do
      let tid ← getId target
      let aid ← getId ann
      let vs ← parse_expr pr value
      .ok (some (space col ++ tid ++ ": " ++ aid ++ " = " ++ vs))
  | .assign col targets value => do
      let tid ← (match targets with
        | [] => (.error .indexError : Except PyErr String)
        | t :: _ => getId t)
      let vs ← parse_expr pr value
      .ok (some (space col ++ tid ++ " = " ++ vs))
  | .ret col value => do
      let vs ← (match value with
        | some e => parse_expr pr e
        | Option.none => (.ok "None" : Except PyErr String))
      .ok (some (space col ++ "return " ++ vs))
  | .forS col target iter body => do
      let tid ← getId target
      let its ← parse_expr pr iter
      let bs ← parse_body pr body
      .ok (some (space col ++ "for " ++ tid ++ " in " ++ its ++ ":\n" ++ bs ++ "\n"))
  | .augAssign col target op value => do
      let os ← dictGet (.opC op)
      let vs ← parse_expr pr value
      .ok (some (space col ++ pr target ++ " " ++ os ++ "= " ++ vs))
  | .ifS col test body => do
      let ts ← parse_expr pr test
      let bs ← parse_body pr body
      .ok (some (space col ++ "if " ++ ts ++ ":\n" ++ bs ++ "\n"))
  | .importS col names => do
      let ns ← parse_args_list pr (names.map PNode.alias)
      .ok (some (space col ++ "import " ++ ns))
  | .importFrom col module names level =>
      (match module with
      | Option.none =>
          .ok (some (space col ++ "from " ++ dots level ++ " import " ++
            String.intercalate ", " names ++ "\n"))
      | some m =>
          .ok (some (space col ++ "from " ++ dots level ++ m ++ " import " ++
            String.intercalate ", " names ++ "\n")))
  | .raiseS col exc =>
      (match exc with
      | some (.name i) => .ok (some (space col ++ "raise " ++ i))
      | some (.call f args) => do
          let fid ← getId f
          let s ← parse_args_list pr args
          .ok (some (space col ++ "raise " ++ fid ++ "(" ++ s ++ "))"))
      | _ => .ok Option.none)
  | .functionDef col nm args body decorators returns => do
      let opts ← parse_options pr decorators
      (match returns with
      | some r => do
          let rid ← getId r
          let argStr ← parse_args_arguments args
          let bs ← parse_body pr body
          .ok (some (space col ++ "cdef " ++ rid ++ " " ++ nm ++ "(" ++ argStr ++ ") " ++
            String.intercalate ", " opts ++ ":\n" ++ bs ++ "\n"))
      | Option.none => do
          let argStr ← parse_args_arguments args
          let bs ← parse_body pr body
          .ok (some (space col ++ "def " ++ nm ++ "(" ++ argStr ++ ") " ++
            String.intercalate ", " opts ++ ":\n" ++ bs ++ "\n")))
  | .classDef _ _ => .ok Option.none

/-- Embeds parse_body of the source: concatenate the parse_stmt result
of each statement, skipping None results. -/
def parse_body (pr : PNode → String) : List Stmt → Except PyErr String
  | [] => .ok ""
  | s :: rest => do
      let so ← parse_stmt pr s
      let restS ← parse_body pr rest
      .ok ((so.getD "") ++ restS)

end

/-- Embeds the loop of Generator.__init__ over the top level statement
list: each parse_stmt result has the newline appended.  When parse_stmt
returns None, the Python expression None + newline raises TypeError. -/
def gen_loop (pr : PNode → String) : List Stmt → Except PyErr String
  | [] => .ok ""
  | s :: rest => do
      let so ← parse_stmt pr s
      (match so with
      | Option.none => .error .typeError
      | some t => do
          let restS ← gen_loop pr rest
          .ok (t ++ "\n" ++ restS))

/-- Embeds Generator.__init__ up to the point where the accumulated text
is written to generated.pyx: TypeError when neither filename nor code is
given; otherwise the code string is the contents of the named file when
a filename is given (the code argument is then never read), else the
code argument; the external parser turns the chosen string into the
statement list and the loop above renders it.  The file system and the
parser are external collaborators, supplied as the functions fs and
parseFn.  The returned string is the text handed to the file writer; an
error means the constructor raised before writing. -/
def generator_init (pr : PNode → String) (fs : String → String)
    (parseFn : String → List Stmt) (filename : Option String) (code : Option String) :
    Except PyErr String :=
  match filename, code with
  | Option.none, Option.none => .error .typeError
  | some f, _ => gen_loop pr (parseFn (fs f))
  | Option.none, some c => gen_loop pr (parseFn c)

/-- The recorded column offset of a statement node. -/
def Stmt.col : Stmt → Nat
  | .exprS c _ => c
  | .passS c => c
  | .listS c _ => c
  | .annAssign c _ _ _ => c
  | .assign c _ _ => c
  | .ret c _ => c
  | .forS c _ _ _ => c
  | .augAssign c _ _ _ => c
  | .ifS c _ _ => c
  | .importS c _ => c
  | .importFrom c _ _ _ => c
  | .raiseS c _ => c
  | .functionDef c _ _ _ _ _ => c
  | .classDef c _ => c

/-- Whether a statement node is a plain expression statement. -/
def Stmt.isExpr : Stmt → Bool
  | .exprS _ _ => true
  | _ => false

/-! ## Proof toolkit -/

/-- Two strings with the same character data are equal. -/
theorem str_ext {a b : String} (h : a.data = b.data) : a = b := by
  cases a; cases b; exact congrArg String.mk h

@[simp] theorem exc_ok_bind {α β : Type} (a : α) (f : α → Except PyErr β) :
    (Except.ok a >>= f) = f a := rfl

@[simp] theorem exc_error_bind {α β : Type} (e : PyErr) (f : α → Except PyErr β) :
    ((Except.error e : Except PyErr α) >>= f) = .error e := rfl

@[simp] theorem exc_pure {α : Type} (a : α) : (pure a : Except PyErr α) = .ok a := rfl

@[simp] theorem str_empty_append (s : String) : "" ++ s = s :=
  str_ext (by simp [String.data_append])

@[simp] theorem str_append_empty (s : String) : s ++ "" = s :=
  str_ext (by simp [String.data_append])

/-- Number of leading space characters of a character list. -/
def countSp : List Char → Nat
  | [] => 0
  | c :: rest => if c = ' ' then countSp rest + 1 else 0

/-- Number of leading space characters of a string. -/
def leadingSpaces (s : String) : Nat := countSp s.data

theorem countSp_replicate_append (n : Nat) (l : List Char) (h : l.head? ≠ some ' ') :
    countSp (List.replicate n ' ' ++ l) = n := by
  induction n with
  | zero =>
      rw [List.replicate_zero, List.nil_append]
      cases l with
      | nil => rfl
      | cons c cs =>
          simp only [List.head?] at h
          simp only [countSp]
          rw [if_neg]
          intro hc
          exact h (by rw [hc])
  | succ k ih =>
      rw [List.replicate_succ, List.cons_append]
      simp only [countSp, if_pos]
      rw [ih]

theorem leadingSpaces_space_append (n : Nat) (t : String) (h : t.data.head? ≠ some ' ') :
    leadingSpaces (space n ++ t) = n := by
  unfold leadingSpaces
  rw [String.data_append]
  exact countSp_replicate_append n t.data h

theorem head?_append_left (p t : String) (hp : p.data ≠ []) :
    (p ++ t).data.head? = p.data.head? := by
  rw [String.data_append]
  cases hd : p.data with
  | nil => exact absurd hd hp
  | cons c cs => rfl

/-- A string whose first character exists and is not a space: the shape
of Python identifiers and of CPython default object reprs. -/
def goodStr (s : String) : Prop := s.data.head? ≠ some ' ' ∧ s.data ≠ []

/-- A fixed stand-in for the CPython default repr of a syntax node.  The
real text also carries the object address; every theorem that depends on
repr output quantifies over the repr function instead of relying on this
stand-in, which only instantiates witnesses. -/
def reprFix : PNode → String := fun _ => "<node>"

theorem reprFix_good : ∀ n, goodStr (reprFix n) := by
  intro n
  constructor
  · intro h
    simp only [reprFix] at h
    exact absurd h (by decide)
  · intro h
    simp only [reprFix] at h
    exact absurd h (by decide)

theorem getId_ok {e : PNode} {i : String} (h : getId e = .ok i) : e = .name i := by
  cases e <;> simp only [getId, Except.ok.injEq] at h <;> first
    | (subst h; rfl)
    | exact Except.noConfusion h

/-- The condition on an assignment target under which the rendering of
the target id starts with a visible character: the target is a name
carrying a well formed identifier.  Non-name targets raise before
rendering, so they need no condition. -/
def targetOk : PNode → Prop
  | .name i => goodStr i
  | _ => True

/-- The identifier conditions a statement needs for the indentation law:
only the two assignment forms render an identifier directly after the
indent. -/
def headOk : Stmt → Prop
  | .annAssign _ t _ _ => targetOk t
  | .assign _ ts _ =>
      (match ts with
      | [] => True
      | t :: _ => targetOk t)
  | _ => True

/-! ## Claims -/

/-- C5: the operator-symbol mapping is total over the fixed enumerated
operator set: every operator node class in that set is present in the
operators dict and maps to exactly its documented symbol. -/
theorem c5_operator_table_total :
    (∀ o : OpTy, (operators (.opC o)).isSome = true) ∧
    operators (.opC .add) = some "+" ∧
    operators (.opC .sub) = some "-" ∧
    operators (.opC .mult) = some "*" ∧
    operators (.opC .div) = some "/" ∧
    operators (.opC .pow) = some "**" ∧
    operators (.opC .mod) = some "%" ∧
    operators (.opC .lshift) = some "<<" ∧
    operators (.opC .rshift) = some ">>" ∧
    operators (.opC .bitOr) = some "|" ∧
    operators (.opC .bitXor) = some "^" ∧
    operators (.opC .bitAnd) = some "&" ∧
    operators (.opC .floorDiv) = some "//" ∧
    operators (.opC .eq) = some "==" ∧
    operators (.opC .notEq) = some "!=" ∧
    operators (.opC .lt) = some "<" ∧
    operators (.opC .ltE) = some "<=" ∧
    operators (.opC .gt) = some ">" ∧
    operators (.opC .gtE) = some ">=" ∧
    operators (.opC .isOp) = some "is" ∧
    operators (.opC .isNot) = some "is not" ∧
    operators (.opC .inOp) = some "in" ∧
    operators (.opC .notIn) = some "not in" := by
  refine ⟨fun o => ?_, rfl, rfl, rfl, rfl, rfl, rfl, rfl, rfl, rfl, rfl, rfl,
    rfl, rfl, rfl, rfl, rfl, rfl, rfl, rfl, rfl, rfl, rfl⟩
  cases o <;> rfl

/-- C8: constructing a Generator with neither a filename nor inline code
raises TypeError immediately; the constructor yields an error and never
reaches the point where output text is produced or written. -/
theorem c8_init_requires_source (pr : PNode → String) (fs : String → String)
    (parseFn : String → List Stmt) :
    generator_init pr fs parseFn Option.none Option.none = .error .typeError := rfl

/-- C10: when both a filename and inline code are supplied, the filename
wins: the rendered statements are those parsed from the contents of the
named file, and the result is identical to the one obtained when no
inline code is passed at all. -/
theorem c10_filename_precedence (pr : PNode → String) (fs : String → String)
    (parseFn : String → List Stmt) (f c : String) :
    generator_init pr fs parseFn (some f) (some c) = gen_loop pr (parseFn (fs f)) ∧
    generator_init pr fs parseFn (some f) (some c) =
      generator_init pr fs parseFn (some f) Option.none :=
  ⟨rfl, rfl⟩

/-- C9: rendering is deterministic.  The embedded renderer carries no
mutable state: the whole run is the pure function gen_loop of the repr
function and the tree, so two runs on the same runtime input (same tree,
same object reprs) give byte-identical text. -/
theorem c9_deterministic (pr pr' : PNode → String) (t t' : List Stmt)
    (hpr : pr = pr') (ht : t = t') : gen_loop pr t = gen_loop pr' t' := by
  subst hpr; subst ht; rfl

theorem c9_deterministic_witness :
    gen_loop reprFix [Stmt.passS 0] = gen_loop reprFix [Stmt.passS 0] :=
  c9_deterministic reprFix reprFix [Stmt.passS 0] [Stmt.passS 0] rfl rfl

/-- C3: rendering any comparison expression whose left operand is a
name raises KeyError instead of producing text: the source subscripts
the operators dict with type of the ops attribute, which is the list
class and is not a key of the dict.  This holds in particular for a
single-operator comparison such as a lt b, contradicting the claimed
rendering of left, first operator and first comparator. -/
theorem c3_compare_raises_keyerror (pr : PNode → String) (i : String)
    (ops : List OpTy) (comps : List PNode) :
    parse_expr pr (.compare (.name i) ops comps) = .error .keyError := by
  simp [parse_expr, atomOr, dictGet, operators]

/-- C4 counterexample: a class definition as a top-level statement does
raise: the Generator loop appends a newline to the None returned by
parse_stmt, a TypeError.  This refutes the part of the claim that says
the top-level path does not raise. -/
theorem c4_counterexample :
    gen_loop reprFix [Stmt.classDef 0 "C"] = .error .typeError := rfl

/-- C4 (amended): a statement of unrecognised kind renders to None and
is silently skipped with no output line inside parse_body (function and
loop bodies); but in the top-level loop of Generator.__init__ the same
None makes the expression None + newline raise TypeError. -/
theorem c4_unrecognised_kind (pr : PNode → String) (c : Nat) (nm : String)
    (rest : List Stmt) :
    parse_stmt pr (.classDef c nm) = .ok Option.none ∧
    parse_body pr (.classDef c nm :: rest) = parse_body pr rest ∧
    gen_loop pr (.classDef c nm :: rest) = .error .typeError := by
  refine ⟨rfl, ?_, ?_⟩
  · cases hb : parse_body pr rest <;>
      simp [parse_body, parse_stmt, hb, Option.getD]
  · simp [gen_loop, parse_stmt]

theorem exc_bind_eq {α β : Type} (x : Except PyErr α) (f : α → Except PyErr β) :
    (x >>= f) = (match x with | .error e => .error e | .ok a => f a) := by
  cases x <;> rfl

theorem goodStr_append (p : String) (hp : goodStr p) (t : String) :
    (p ++ t).data.head? ≠ some ' ' := by
  rw [head?_append_left p t hp.2]
  exact hp.1

theorem ok_some_eq {X out : String}
    (h : (Except.ok (some X) : Except PyErr (Option String)) = .ok (some out)) : X = out :=
  Option.some.inj (Except.ok.inj h)

/-- C1 (amended): for every recognised statement kind other than the
plain expression statement, a successful rendering starts with exactly
colOffset space characters, provided the identifier rendered first on
the two assignment forms is a well formed identifier and the node reprs
are well formed texts; plain expression statements are rendered with no
indentation at all (see the counterexample). -/
theorem c1_indentation_law (pr : PNode → String) (hpr : ∀ n, goodStr (pr n))
    (s : Stmt) (hs : s.isExpr = false) (hid : headOk s)
    (out : String) (h : parse_stmt pr s = .ok (some out)) :
    leadingSpaces out = s.col := by
  cases s with
  | exprS col v => simp [Stmt.isExpr] at hs
  | passS col =>
      simp only [parse_stmt] at h
      have hx := ok_some_eq h
      subst hx
      exact leadingSpaces_space_append _ _ (by decide)
  | listS col elts =>
      simp only [parse_stmt, exc_bind_eq] at h
      split at h
      · exact Except.noConfusion h
      · have hx := ok_some_eq h
        subst hx
        simp only [String.append_assoc]
        exact leadingSpaces_space_append _ _ (goodStr_append "[" ⟨by decide, by decide⟩ _)
  | annAssign col t a v =>
      simp only [parse_stmt, exc_bind_eq] at h
      split at h
      · exact Except.noConfusion h
      next tid heq =>
        split at h
        · exact Except.noConfusion h
        · split at h
          · exact Except.noConfusion h
          · have hx := ok_some_eq h
            subst hx
            have ht := getId_ok heq
            subst ht
            have hgood : goodStr tid := hid
            simp only [String.append_assoc]
            exact leadingSpaces_space_append _ _ (goodStr_append tid hgood _)
  | assign col ts v =>
      simp only [parse_stmt, exc_bind_eq] at h
      split at h
      · exact Except.noConfusion h
      next tid heq =>
        split at h
        · exact Except.noConfusion h
        · have hx := ok_some_eq h
          subst hx
          have hgood : goodStr tid := by
            cases ts with
            | nil => exact absurd heq (by simp)
            | cons t ts' =>
                have ht := getId_ok heq
                subst ht
                exact hid
          simp only [String.append_assoc]
          exact leadingSpaces_space_append _ _ (goodStr_append tid hgood _)
  | ret col v =>
      simp only [parse_stmt, exc_bind_eq] at h
      split at h
      · exact Except.noConfusion h
      · have hx := ok_some_eq h
        subst hx
        simp only [String.append_assoc]
        exact leadingSpaces_space_append _ _ (goodStr_append "return " ⟨by decide, by decide⟩ _)
  | forS col t iter body =>
      simp only [parse_stmt, exc_bind_eq] at h
      split at h
      · exact Except.noConfusion h
      · split at h
        · exact Except.noConfusion h
        · split at h
          · exact Except.noConfusion h
          · have hx := ok_some_eq h
            subst hx
            simp only [String.append_assoc]
            exact leadingSpaces_space_append _ _ (goodStr_append "for " ⟨by decide, by decide⟩ _)
  | augAssign col t op v =>
      simp only [parse_stmt, exc_bind_eq] at h
      split at h
      · exact Except.noConfusion h
      · split at h
        · exact Except.noConfusion h
        · have hx := ok_some_eq h
          subst hx
          simp only [String.append_assoc]
          exact leadingSpaces_space_append _ _ (goodStr_append (pr t) (hpr t) _)
  | ifS col test body =>
      simp only [parse_stmt, exc_bind_eq] at h
      split at h
      · exact Except.noConfusion h
      · split at h
        · exact Except.noConfusion h
        · have hx := ok_some_eq h
          subst hx
          simp only [String.append_assoc]
          exact leadingSpaces_space_append _ _ (goodStr_append "if " ⟨by decide, by decide⟩ _)
  | importS col names =>
      simp only [parse_stmt, exc_bind_eq] at h
      split at h
      · exact Except.noConfusion h
      · have hx := ok_some_eq h
        subst hx
        simp only [String.append_assoc]
        exact leadingSpaces_space_append _ _ (goodStr_append "import " ⟨by decide, by decide⟩ _)
  | importFrom col module names level =>
      simp only [parse_stmt] at h
      split at h
      · have hx := ok_some_eq h
        subst hx
        simp only [String.append_assoc]
        exact leadingSpaces_space_append _ _ (goodStr_append "from " ⟨by decide, by decide⟩ _)
      · have hx := ok_some_eq h
        subst hx
        simp only [String.append_assoc]
        exact leadingSpaces_space_append _ _ (goodStr_append "from " ⟨by decide, by decide⟩ _)
  | raiseS col exc =>
      simp only [parse_stmt, exc_bind_eq] at h
      split at h
      · have hx := ok_some_eq h
        subst hx
        simp only [String.append_assoc]
        exact leadingSpaces_space_append _ _ (goodStr_append "raise " ⟨by decide, by decide⟩ _)
      · split at h
        · exact Except.noConfusion h
        · split at h
          · exact Except.noConfusion h
          · have hx := ok_some_eq h
            subst hx
            simp only [String.append_assoc]
            exact leadingSpaces_space_append _ _ (goodStr_append "raise " ⟨by decide, by decide⟩ _)
      · exact Option.noConfusion (Except.ok.inj h)
  | functionDef col nm args body decorators returns =>
      simp only [parse_stmt, exc_bind_eq] at h
      split at h
      · exact Except.noConfusion h
      · split at h
        · split at h
          · exact Except.noConfusion h
          · split at h
            · exact Except.noConfusion h
            · split at h
              · exact Except.noConfusion h
              · have hx := ok_some_eq h
                subst hx
                simp only [String.append_assoc]
                exact leadingSpaces_space_append _ _
                  (goodStr_append "cdef " ⟨by decide, by decide⟩ _)
        · split at h
          · exact Except.noConfusion h
          · split at h
            · exact Except.noConfusion h
            · have hx := ok_some_eq h
              subst hx
              simp only [String.append_assoc]
              exact leadingSpaces_space_append _ _
                (goodStr_append "def " ⟨by decide, by decide⟩ _)
  | classDef col nm =>
      simp only [parse_stmt] at h
      exact Option.noConfusion (Except.ok.inj h)

theorem c1_indentation_law_witness :
    goodStr (reprFix (PNode.name "x")) ∧
    (Stmt.passS 2).isExpr = false ∧ headOk (Stmt.passS 2) ∧
    parse_stmt reprFix (Stmt.passS 2) = .ok (some "  ...") ∧
    leadingSpaces "  ..." = (Stmt.passS 2).col :=
  ⟨reprFix_good _, rfl, trivial, rfl,
    c1_indentation_law reprFix reprFix_good (Stmt.passS 2) rfl trivial "  ..." rfl⟩

/-- C1 counterexample: an expression statement recorded at column 4 and
holding a call renders as the bare call text with zero leading spaces,
refuting the indentation law for plain expression statements. -/
theorem c1_counterexample :
    parse_stmt reprFix (Stmt.exprS 4 (.call (.name "f") [])) = .ok (some "f()") ∧
    leadingSpaces "f()" = 0 ∧ (Stmt.exprS 4 (.call (.name "f") [])).col = 4 :=
  ⟨rfl, rfl, rfl⟩

/-- The scenario function of C2: def f(x: int) -> int: return x, with
the body statement recorded at column 4. -/
def fnC2 : Stmt := .functionDef 0 "f" [⟨"x", some (.name "int")⟩]
    [.ret 4 (some (.name "x"))] [] (some (.name "int"))

/-- C2 at the failing input: the function with a return annotation does
render through the statically typed cdef header, and its sibling without
the annotation renders through the plain def header, but the body is not
the claimed text: the bare name x reaches the final else branch of
parse_expr and renders as str of the Name node (its repr), so the output
differs from the claimed one whenever the repr is not the bare
identifier, which CPython guarantees. -/
theorem c2_typed_header_at_failing_input (pr : PNode → String)
    (hpr : pr (.name "x") ≠ "x") :
    parse_stmt pr fnC2 =
      .ok (some ("cdef int f(int x) :\n    return " ++ pr (.name "x") ++ "\n")) ∧
    parse_stmt pr (.functionDef 0 "f" [⟨"x", some (.name "int")⟩]
        [.ret 4 (some (.name "x"))] [] Option.none) =
      .ok (some ("def f(int x) :\n    return " ++ pr (.name "x") ++ "\n")) ∧
    parse_stmt pr fnC2 ≠ .ok (some "cdef int f(int x) :\n    return x\n") := by
  have h0 : parse_stmt pr fnC2 =
      .ok (some (("cdef int f(int x) :\n" ++ (("    return " ++ pr (.name "x")) ++ "")) ++ "\n")) :=
    rfl
  refine ⟨?_, ?_, ?_⟩
  · rw [h0]
    congr 1
    congr 1
    apply str_ext
    simp [String.data_append, List.append_assoc]
  · have h1 : parse_stmt pr (.functionDef 0 "f" [⟨"x", some (.name "int")⟩]
        [.ret 4 (some (.name "x"))] [] Option.none) =
        .ok (some (("def f(int x) :\n" ++ (("    return " ++ pr (.name "x")) ++ "")) ++ "\n")) :=
      rfl
    rw [h1]
    congr 1
    congr 1
    apply str_ext
    simp [String.data_append, List.append_assoc]
  · intro heq
    have hs' := ok_some_eq (h0.symm.trans heq)
    apply hpr
    apply str_ext
    have hd := congrArg String.data hs'
    simp only [String.data_append, List.append_assoc, List.append_nil, List.cons_append,
      List.nil_append] at hd
    try simp at hd
    have hd2 : (pr (.name "x")).data ++ ['\n'] = ['x'] ++ ['\n'] := hd
    exact List.append_cancel_right hd2

theorem c2_typed_header_at_failing_input_witness :
    reprFix (PNode.name "x") ≠ "x" ∧
    (parse_stmt reprFix fnC2 =
      .ok (some ("cdef int f(int x) :\n    return " ++ reprFix (.name "x") ++ "\n")) ∧
    parse_stmt reprFix (.functionDef 0 "f" [⟨"x", some (.name "int")⟩]
        [.ret 4 (some (.name "x"))] [] Option.none) =
      .ok (some ("def f(int x) :\n    return " ++ reprFix (.name "x") ++ "\n")) ∧
    parse_stmt reprFix fnC2 ≠ .ok (some "cdef int f(int x) :\n    return x\n")) :=
  ⟨by decide, c2_typed_header_at_failing_input reprFix (by decide)⟩

/-- C6 at the failing input: the augmented assignment branch
interpolates the target node itself into the f-string, so the rendering
is the node repr followed by the operator and value, and it differs from
the claimed identifier rendering whenever the repr is not the bare
identifier, which CPython guarantees. -/
theorem c6_aug_assign_renders_node_repr (pr : PNode → String) :
    parse_stmt pr (.augAssign 0 (.name "x") .add (.constE (.int 1))) =
      .ok (some (pr (.name "x") ++ " += 1")) ∧
    (pr (.name "x") ≠ "x" →
      parse_stmt pr (.augAssign 0 (.name "x") .add (.constE (.int 1))) ≠
        .ok (some "x += 1")) := by
  have h0 : parse_stmt pr (.augAssign 0 (.name "x") .add (.constE (.int 1))) =
      .ok (some ((((pr (.name "x") ++ " ") ++ "+") ++ "= ") ++ "1")) := rfl
  constructor
  · rw [h0]
    congr 1
    congr 1
    apply str_ext
    simp [String.data_append, List.append_assoc]
  · intro hne heq
    have hs' := ok_some_eq (h0.symm.trans heq)
    apply hne
    apply str_ext
    have hd := congrArg String.data hs'
    simp only [String.data_append, List.append_assoc, List.append_nil, List.cons_append,
      List.nil_append] at hd
    try simp at hd
    have hd2 : (pr (.name "x")).data ++ [' ', '+', '=', ' ', '1'] =
        ['x'] ++ [' ', '+', '=', ' ', '1'] := hd
    exact List.append_cancel_right hd2

theorem c6_aug_assign_renders_node_repr_witness :
    parse_stmt reprFix (.augAssign 0 (.name "x") .add (.constE (.int 1))) =
      .ok (some (reprFix (.name "x") ++ " += 1")) ∧
    parse_stmt reprFix (.augAssign 0 (.name "x") .add (.constE (.int 1))) ≠
      .ok (some "x += 1") :=
  ⟨(c6_aug_assign_renders_node_repr reprFix).1,
    (c6_aug_assign_renders_node_repr reprFix).2 (by decide)⟩

/-- The C7 counterexample function: both recognised markers on one
function, in the order no_gil then except_error. -/
def fnC7 : Stmt := .functionDef 0 "f" [] [.passS 4]
    [.call (.name "no_gil") [], .call (.name "except_error") [.name "ValueError"]]
    Option.none

/-- C7 counterexample: with both markers present the emitted option
segment is nogil, except ValueError, i.e. the tokens are joined by a
comma and a space, not space-separated as claimed. -/
theorem c7_counterexample :
    parse_stmt reprFix fnC7 =
      .ok (some "def f() nogil, except ValueError:\n    ...\n") ∧
    "def f() nogil, except ValueError:\n    ...\n" ≠
      "def f() nogil except ValueError:\n    ...\n" :=
  ⟨rfl, by decide⟩

/-- C7 (amended): the recognised markers contribute their option tokens
in declaration order, the no-lock marker the token nogil and the
filtered-exception marker the token except followed by its rendered
argument; the tokens are joined by a comma and a space in the emitted
header, and when no options apply an empty options segment is still
emitted between the parameter list and the colon. -/
theorem c7_option_tokens (pr : PNode → String) (col : Nat) (nm E : String)
    (body : List Stmt) (bs : String) (hb : parse_body pr body = .ok bs) :
    parse_options pr
        [.call (.name "no_gil") [], .call (.name "except_error") [.name E]] =
      .ok ["nogil", "except " ++ E] ∧
    parse_stmt pr (.functionDef col nm [] body
        [.call (.name "no_gil") [], .call (.name "except_error") [.name E]] Option.none) =
      .ok (some (space col ++ "def " ++ nm ++ "() " ++ "nogil, except " ++ E ++ ":\n" ++
        bs ++ "\n")) ∧
    parse_stmt pr (.functionDef col nm [] body [] Option.none) =
      .ok (some (space col ++ "def " ++ nm ++ "() " ++ ":\n" ++ bs ++ "\n")) := by
  have hopts : parse_options pr
      [.call (.name "no_gil") [], .call (.name "except_error") [.name E]] =
      .ok ["nogil", "except " ++ E] := rfl
  have hargs : parse_args_arguments [] = .ok "" := rfl
  refine ⟨hopts, ?_, ?_⟩
  · simp only [parse_stmt, hopts, exc_ok_bind]
    simp only [hargs, exc_ok_bind, hb]
    have hic : String.intercalate ", " ["nogil", "except " ++ E] =
        "nogil, " ++ ("except " ++ E) := rfl
    rw [hic]
    congr 1
    congr 1
    apply str_ext
    simp [String.data_append, List.append_assoc, space]
  · have hopts0 : parse_options pr ([] : List PNode) = .ok [] := rfl
    simp only [parse_stmt, hopts0, exc_ok_bind]
    simp only [hargs, exc_ok_bind, hb]
    congr 1
    congr 1
    apply str_ext
    simp [String.data_append, List.append_assoc, space, String.intercalate]

theorem c7_option_tokens_witness :
    parse_body reprFix [Stmt.passS 4] = .ok "    ..." ∧
    (parse_options reprFix
        [.call (.name "no_gil") [], .call (.name "except_error") [.name "ValueError"]] =
      .ok ["nogil", "except " ++ "ValueError"] ∧
    parse_stmt reprFix (.functionDef 0 "f" [] [Stmt.passS 4]
        [.call (.name "no_gil") [], .call (.name "except_error") [.name "ValueError"]]
        Option.none) =
      .ok (some (space 0 ++ "def " ++ "f" ++ "() " ++ "nogil, except " ++ "ValueError" ++
        ":\n" ++ "    ..." ++ "\n")) ∧
    parse_stmt reprFix (.functionDef 0 "f" [] [Stmt.passS 4] [] Option.none) =
      .ok (some (space 0 ++ "def " ++ "f" ++ "() " ++ ":\n" ++ "    ..." ++ "\n"))) :=
  ⟨rfl, c7_option_tokens reprFix 0 "f" "ValueError" [Stmt.passS 4] "    ..." rfl⟩
